import Mathlib

/-!
# Verification of the paleomix core scheduler specification

Shallow embedding of the core components of the paleomix pipeline
orchestrator, translated from `src/paleomix/core/workers.py` (Manager,
LocalWorker, RemoteWorker) together with the command-set and node-graph
primitives exercised by the test suite.

The modules `paleomix/common/command.py` (AtomicCmd, ParallelCmds,
SequentialCmds) and `pypeline/nodegraph.py` (NodeGraph, FileStatusCache)
are not part of the provided sources; for the claims that concern them,
the definitions below are modelled from the specification text (each such
definition carries a doc comment starting with "Modelled from the spec:").
All other definitions are translated directly from the Python sources.
-/

namespace Paleomix

/-! ## Command sets (spec-modelled)

The implementation file `paleomix/common/command.py` is absent from the
sources; only its test suite (`tests/common_tests/command_test/sets_test.py`)
is available.  The definitions in this section are modelled from the
specification, sections 4.1 and 4.2. -/

/-- Modelled from the spec: an `AtomicCmd` as seen by the set-level
`commit()` logic of section 4.2 (missing source file
`paleomix/common/command.py`).  `returncode` is the exit code reported by
`join()`; `outputs` are the declared `OutputFile` destinations that a
successful commit moves into place; `commit_raises` records whether this
member's `commit()` raises (for example because a move fails). -/
structure AtomicCmd where
  id : Nat
  returncode : Nat
  outputs : List String
  commit_raises : Bool
deriving Repr, DecidableEq

/-- Modelled from the spec: "`commit()` commits all members in declaration
order; if any member's commit raises, remaining members are not committed,
but already-committed members' outputs remain in place" (section 4.2, both
ParallelCmds and SequentialCmds).  The result is the final set of files at
their destinations, the ids of the members whose commit completed (in
order), and the id of the member whose commit raised, if any. -/
def CmdSet.commit (fs : List String) : List AtomicCmd → List String × List Nat × Option Nat
  | [] => (fs, [], none)
  | c :: rest =>
    if c.commit_raises then
      (fs, [], some c.id)
    else
      let r := CmdSet.commit (fs ++ c.outputs) rest
      (r.1, c.id :: r.2.1, r.2.2)

/-- Modelled from the spec: the observable behaviour of one member of a
`ParallelCmds` (section 4.2).  `exits c` is a command that terminates on
its own with exit code `c` (like `false`, exit code 1); `sleeps` is a
command that keeps running until it is signalled (like `sleep 10`). -/
inductive PMember where
  | exits (code : Nat)
  | sleeps
deriving Repr, DecidableEq

/-- A per-member `join()` result: an exit code, the name of the signal that
terminated the member, or `not_started` (spec section 4.2: exit code,
`None` for not-yet-started, or the signal name for a terminated member). -/
inductive JoinResult where
  | code (n : Nat)
  | signal (name : String)
  | not_started
deriving Repr, DecidableEq

/-- Whether a member terminates on its own with a non-zero exit code. -/
def PMember.fails : PMember → Bool
  | .exits c => c != 0
  | .sleeps => false

/-- Modelled from the spec: `ParallelCmds.run`/`join` (section 4.2).  All
members are started together; "on first non-zero exit of any member, every
still-running member is signaled TERM", so when some member fails on its
own, the long-running members report the signal name `"SIGTERM"`; when no
member fails, every member runs to completion. -/
def ParallelCmds.join (members : List PMember) : List JoinResult :=
  if members.any PMember.fails then
    members.map fun m =>
      match m with
      | .exits c => .code c
      | .sleeps => .signal "SIGTERM"
  else
    members.map fun m =>
      match m with
      | .exits c => .code c
      | .sleeps => .code 0

/-- Modelled from the spec: `SequentialCmds.run`/`join` (section 4.2).
Members are described by the exit code each would report.  "run(T) starts
the first member, joins it, and only on zero exit proceeds to the next.
join() returns the list with None for members that never ran due to an
earlier failure."  The result pairs the `join()` list with the number of
members that were started. -/
def SequentialCmds.run : List Nat → List (Option Nat) × Nat
  | [] => ([], 0)
  | c :: rest =>
    if c = 0 then
      let r := SequentialCmds.run rest
      (some c :: r.1, r.2 + 1)
    else
      (some c :: rest.map (fun _ => none), 1)

/-! ## NodeGraph outdatedness (spec-modelled)

The implementation file `pypeline/nodegraph.py` is absent from the
sources; only its test suite (`tests/nodegraph_test.py`) is available. -/

/-- A `FileStatusCache` viewed extensionally: for each path, `none` when
the file does not exist, `some mtime` when it does (spec section 4.4). -/
def FileStatusCache := String → Option Nat

/-- Modelled from the spec: `NodeGraph._is_outdated` (section 4.5, missing
source file `pypeline/nodegraph.py`): "`OUTDATED` iff every declared
output file exists AND some input file's mtime exceeds the minimum mtime
of the output files" (the sub/dep condition is checked separately by state
derivation; the predicate itself, as exercised by `tests/nodegraph_test.py`,
takes only the input and output file sets).  When some output is missing,
or there are no outputs (so no minimum output mtime exists), the predicate
is false; a missing input does not itself mark the node outdated. -/
def NodeGraph.is_outdated (input_files output_files : List String)
    (cache : FileStatusCache) : Bool :=
  match output_files.mapM cache with
  | none => false
  | some [] => false
  | some (m :: ms) =>
    let min_out := ms.foldl min m
    input_files.any fun p =>
      match cache p with
      | some t => min_out < t
      | none => false

/-! ## Manager / worker scheduler

Translated from `src/paleomix/core/workers.py`. -/

/-- Worker (connection) states, from workers.py lines 96-100. -/
inductive Status where
  | uninitialized
  | connecting
  | running
  | terminated
deriving Repr, DecidableEq

/-- A `Node` as seen by the scheduler: a stable id and a declared thread
count (the only attributes `workers.py` reads from tasks). -/
structure Node where
  id : Nat
  threads : Nat
deriving Repr, DecidableEq

/-- The manager-side view of one worker in `Manager._workers`: its id,
whether it is the local worker, its connection status, its announced
thread capacity (`threads`) and its running-task map (`_running`,
a task-id-keyed dict, here an association list in insertion order).
Remote workers additionally record the base64-decoded shared `secret`
they were constructed with. -/
structure Worker where
  id : String
  isLocal : Bool
  status : Status
  threads : Nat
  running : List (Nat × Node)
  secret : String
deriving Repr, DecidableEq

/-- Wire-protocol events received from a remote worker's connection
(workers.py lines 72-93, manager-bound direction). -/
inductive WireEvent where
  | handshake_response (error : Option String)
  | capacity (threads : Nat)
  | task_done (task_id : Nat) (error : Option String) (backtrace : Option (List String))
  | shutdown
deriving Repr, DecidableEq

/-- Events as they circulate inside `Manager.poll` after the worker id has
been attached (workers.py lines 194-195): the worker-level handlers have
already run, and `TASK_DONE` carries the `Node` substituted for the id. -/
inductive MEvent where
  | handshake_response (worker : String) (error : Option String)
  | capacity (worker : String) (threads : Int) (overcommit : Bool)
  | task_done (worker : String) (task : Node) (error : Option String)
      (backtrace : Option (List String))
  | shutdown (worker : String)
deriving Repr, DecidableEq

/-- Sum of the threads of the tasks currently running on a worker
(the `sum(task.threads for task in worker.tasks)` of workers.py line 218). -/
def Worker.taskThreads (w : Worker) : Nat :=
  (w.running.map fun p => p.2.threads).foldr (· + ·) 0

/-- `max((it.threads for it in self._workers.values()), default=0)`
(workers.py line 216). -/
def maxThreads (workers : List Worker) : Nat :=
  (workers.map Worker.threads).foldr max 0

/-- The `CAPACITY` events synthesized at the end of `Manager.poll`
(workers.py lines 216-227): one event per worker whose idle thread count
(capacity minus threads of running tasks, computed over the integers) is
positive, carrying that idle count, and flagged `overcommit` when
`max_threads and idle_threads == max_threads` is truthy. -/
def Manager.capacityEvents (workers : List Worker) : List MEvent :=
  let max_threads := maxThreads workers
  workers.filterMap fun w =>
    let idle_threads : Int := (w.threads : Int) - (w.taskThreads : Int)
    if 0 < idle_threads then
      some (.capacity w.id idle_threads
        (decide (max_threads ≠ 0 ∧ idle_threads = (max_threads : Int))))
    else
      none

/-- The specification's wording for the synthesized `CAPACITY` events
(section 4.3 of the spec / claim C4): an event for exactly the workers
with positive idle thread count, flagged `overcommit` exactly when the
worker is a largest worker (its capacity equals the maximum capacity over
all workers) and its entire capacity is idle. -/
def Manager.capacityEventsSpec (workers : List Worker) : List MEvent :=
  workers.filterMap fun w =>
    let idle_threads : Int := (w.threads : Int) - (w.taskThreads : Int)
    if 0 < idle_threads then
      some (.capacity w.id idle_threads
        (decide (w.threads = maxThreads workers ∧ idle_threads = (w.threads : Int))))
    else
      none

/-- Worker-level processing of one wire event by a remote worker, keyed by
`(status, event_type)` exactly as `RemoteWorker._event_handlers`
(workers.py lines 519-526) with the handlers of lines 601-625:

* `(connecting, HANDSHAKE_RESPONSE)`: on `error = None` the status becomes
  `running`; otherwise `shutdown()` is called (status `terminated`); in
  both cases the event is re-emitted to the manager.
* `(running, CAPACITY)`: the announced capacity is stored; nothing is
  re-emitted.
* `(running, TASK_DONE)`: the task is popped from the running map
  (`self._running.pop(event["task_id"])`, a `KeyError` — modelled as
  `Except.error` — when absent) and the event is re-emitted with the
  `Node` substituted for the id.
* `(running, SHUTDOWN)`: status becomes `terminated`, the running map is
  cleared, and the event is re-emitted.
* any other `(status, event)` pair is logged and dropped. -/
def Worker.handle_event (w : Worker) (e : WireEvent) :
    Except String (Worker × List MEvent) :=
  match w.status, e with
  | .connecting, .handshake_response none =>
    .ok ({ w with status := .running }, [.handshake_response w.id none])
  | .connecting, .handshake_response (some err) =>
    .ok ({ w with status := .terminated, running := [] },
      [.handshake_response w.id (some err)])
  | .running, .capacity t =>
    .ok ({ w with threads := t }, [])
  | .running, .task_done task_id err bt =>
    match (w.running.find? fun p => p.1 = task_id) with
    | none => .error "KeyError"
    | some p =>
      .ok ({ w with running := w.running.filter fun q => q.1 ≠ task_id },
        [.task_done w.id p.2 err bt])
  | .running, .shutdown =>
    .ok ({ w with status := .terminated, running := [] }, [.shutdown w.id])
  | _, _ => .ok (w, [])

/-- The parsed content of a discovery file: the worker's id, address, and
the base64-decoded shared secret (workers.py lines 356-363). -/
structure WorkerInfo where
  id : String
  host : String
  port : Nat
  secret : String
deriving Repr, DecidableEq

/-- One auto-discovery file under `~/.paleomix/remote/`, together with the
environment's behaviour on it: `parsed` is the result of `json.load` plus
base64-decoding of the `secret` field (`none` when either raises, i.e. the
file is unparsable), and `connectOk` records whether `RemoteWorker.connect`
— `Client(address, authkey=secret)` followed by sending the `HANDSHAKE` —
would succeed against the host/port the file names. -/
structure DiscoveryFile where
  filename : String
  isFile : Bool
  parsed : Option WorkerInfo
  connectOk : Bool
deriving Repr, DecidableEq

/-- The state of a `Manager`: `started` is `self._local is not None`;
`localPending` is the local worker's `events` list (drained at the start
of `_collect_events`); `workers` is the ordered `self._workers` dict;
the two blacklists are `self._json_blacklist` and
`self._worker_blacklist`. -/
structure ManagerState where
  started : Bool
  localId : String
  localThreads : Nat
  localPending : List MEvent
  workers : List Worker
  jsonBlacklist : List String
  workerBlacklist : List String
deriving Repr, DecidableEq

/-- The per-file body of `Manager._collect_workers` (workers.py lines
347-369): scan one entry of the auto-registration directory, skipping
files that are blacklisted or are not regular `*.json` files; an
unparsable file is added to `self._json_blacklist` and skipped; a
parsable file is yielded together with its decoded info. -/
def Manager.collect_workers_step
    (acc : ManagerState × List (DiscoveryFile × WorkerInfo))
    (f : DiscoveryFile) : ManagerState × List (DiscoveryFile × WorkerInfo) :=
  if acc.1.jsonBlacklist.contains f.filename
      ∨ ¬ (".json".data.isSuffixOf f.filename.data ∧ f.isFile) then
    acc
  else
    match f.parsed with
    | none =>
      ({ acc.1 with jsonBlacklist := acc.1.jsonBlacklist ++ [f.filename] },
       acc.2)
    | some info => (acc.1, acc.2 ++ [(f, info)])

/-- The directory scan of `Manager._collect_workers` as a fold of
`collect_workers_step` over the listing. -/
def Manager.collect_workers (s : ManagerState) (dir : List DiscoveryFile) :
    ManagerState × List (DiscoveryFile × WorkerInfo) :=
  dir.foldl Manager.collect_workers_step (s, [])

/-- Result of one `Manager._auto_connect_to_workers` pass: the new manager
state, the discovery files that were unlinked, the connection attempts
that were made (each carries the decoded info the `RemoteWorker` was
constructed from) and the `any_errors` flag. -/
structure AutoConnectResult where
  state : ManagerState
  unlinked : List String
  attempts : List WorkerInfo
  anyErrors : Bool
deriving Repr, DecidableEq

/-- The loop body of `Manager._auto_connect_to_workers` (workers.py lines
323-345), modelling one due pass (the 15 s schedule is environmental): for each
collected worker file, skip ids in `self._worker_blacklist`; report an
error when already connected to the id; otherwise construct a
`RemoteWorker(**info)` and attempt `connect` — on success the worker
(status `connecting`, capacity 0) is added to `self._workers` and the file
is unlinked; on failure the id is blacklisted. -/
def Manager.auto_connect_step (r : AutoConnectResult)
    (fi : DiscoveryFile × WorkerInfo) : AutoConnectResult :=
  if r.state.workerBlacklist.contains fi.2.id then
    r
  else if r.state.workers.any fun w => w.id = fi.2.id then
    { r with anyErrors := true }
  else if fi.1.connectOk then
    { r with
      state := { r.state with
        workers := r.state.workers ++
          [⟨fi.2.id, false, .connecting, 0, [], fi.2.secret⟩] }
      unlinked := r.unlinked ++ [fi.1.filename]
      attempts := r.attempts ++ [fi.2] }
  else
    { r with
      state := { r.state with
        workerBlacklist := r.state.workerBlacklist ++ [fi.2.id] }
      attempts := r.attempts ++ [fi.2]
      anyErrors := true }

/-- `Manager._auto_connect_to_workers` as the fold of `auto_connect_step`
over the collected worker files. -/
def Manager.auto_connect_to_workers (s : ManagerState)
    (dir : List DiscoveryFile) : AutoConnectResult :=
  let c := Manager.collect_workers s dir
  c.2.foldl Manager.auto_connect_step ⟨c.1, [], [], false⟩

/-- The manager-level handling of one collected event inside `Manager.poll`
(workers.py lines 189-211): a `HANDSHAKE_RESPONSE` is consumed (never
yielded) — when its error is non-null the worker's id is added to
`self._worker_blacklist` and the worker is popped from `self._workers`;
a `SHUTDOWN` pops the worker and is yielded; every other event is yielded
unchanged. -/
def ManagerState.process_event (s : ManagerState) (e : MEvent) :
    ManagerState × List MEvent :=
  match e with
  | .handshake_response wid (some _) =>
    ({ s with
        workerBlacklist := s.workerBlacklist ++ [wid]
        workers := s.workers.filter fun w => w.id ≠ wid }, [])
  | .handshake_response _ none => (s, [])
  | .shutdown wid =>
    ({ s with workers := s.workers.filter fun w => w.id ≠ wid }, [e])
  | e => (s, [e])

/-- `Manager._collect_events`, the worker layer of one poll: the local
worker's pending `events` are drained first (workers.py lines 242-248),
then each readable remote connection is drained through the owning
worker's `get` (lines 260-266); `incoming` lists the wire events readable
in this poll, in delivery order, each tagged with the id of the worker
whose connection carries it. -/
def Manager.collect_events (s : ManagerState)
    (incoming : List (String × WireEvent)) :
    Except String (ManagerState × List MEvent) := do
  let localEvents := s.localPending
  let s1 := { s with localPending := [] }
  let r ← incoming.foldlM
    (fun (acc : ManagerState × List MEvent) p => do
      let (st, evts) := acc
      match st.workers.find? fun w => w.id = p.1 with
      | none => pure (st, evts)
      | some w => do
        let (w', newEvts) ← w.handle_event p.2
        pure ({ st with
          workers := st.workers.map fun v => if v.id = p.1 then w' else v },
          evts ++ newEvts))
    (s1, [])
  pure (r.1, localEvents ++ r.2)

/-- The body of `Manager.poll` after `_check_started` (workers.py lines
185-227): run an auto-connect pass, collect events from the workers,
process each through the manager-level handling, then append the
synthesized `CAPACITY` events computed from the resulting worker map. -/
def Manager.poll_body (s : ManagerState) (dir : List DiscoveryFile)
    (incoming : List (String × WireEvent)) :
    Except String (ManagerState × List MEvent) :=
  let s0 := (Manager.auto_connect_to_workers s dir).state
  match Manager.collect_events s0 incoming with
  | .error e => .error e
  | .ok (s1, collected) =>
    let r := collected.foldl
      (fun (acc : ManagerState × List MEvent) e =>
        let (st, out) := acc
        let p := st.process_event e
        (p.1, out ++ p.2))
      (s1, [])
    .ok (r.1, r.2 ++ Manager.capacityEvents r.1.workers)

/-- `Manager.poll` (workers.py lines 185-227).  `_check_started` raises
`WorkerError("Manager not started")` when `self._local is None`, before
any state is touched (an `Except.error` result therefore leaves the
state unchanged). -/
def Manager.poll (s : ManagerState) (dir : List DiscoveryFile)
    (incoming : List (String × WireEvent)) :
    Except String (ManagerState × List MEvent) :=
  if s.started then Manager.poll_body s dir incoming
  else .error "Manager not started"

/-- `Manager.start_task` (workers.py lines 229-237): after
`_check_started`, an unknown worker id is logged and reported as `False`;
otherwise the task is handed to the worker's own `start_task` —
`LocalWorker.start_task` (lines 435-449) requires status `running` and
registers the spawned child, `RemoteWorker.start_task` (lines 566-574)
requires status `running` or `connecting` (`_check_running`, lines
644-646), sends `TASK_START` and registers the task (the send itself is
assumed deliverable here). -/
def Manager.start_task (s : ManagerState) (worker_id : String) (task : Node) :
    Except String (Bool × ManagerState) :=
  if ¬ s.started then .error "Manager not started"
  else
    match s.workers.find? fun w => w.id = worker_id with
    | none => .ok (false, s)
    | some w =>
      if w.isLocal then
        if w.status = .running then
          .ok (true, { s with workers := s.workers.map fun v =>
            if v.id = worker_id then
              { v with running := v.running ++ [(task.id, task)] }
            else v })
        else .error "LocalWorker is not running"
      else
        if w.status = .running ∨ w.status = .connecting then
          .ok (true, { s with workers := s.workers.map fun v =>
            if v.id = worker_id then
              { v with running := v.running ++ [(task.id, task)] }
            else v })
        else .error "RemoteWorker is not running"

/-- `Manager.start` (workers.py lines 148-165): raise
`WorkerError("Manager already started")` when `self._local is not None`;
construct a `LocalWorker` and `connect` it (lines 422-433: the version
requirement check — its outcome is the environmental `versionOk` — and,
on success, status `running` plus a queued `HANDSHAKE_RESPONSE` with
`error = None`); on success record it in `self._workers` and run the
initial auto-connect pass, returning its `not any_errors` result. -/
def Manager.start (s : ManagerState) (versionOk : Bool)
    (dir : List DiscoveryFile) : Except String (Bool × ManagerState) :=
  if s.started then .error "Manager already started"
  else if ¬ versionOk then .ok (false, s)
  else
    let s1 := { s with
      started := true
      workers := s.workers ++
        [⟨s.localId, true, .running, s.localThreads, [], ""⟩]
      localPending := s.localPending ++ [.handshake_response s.localId none] }
    let r := Manager.auto_connect_to_workers s1 dir
    .ok (!r.anyErrors, r.state)

/-- Whether an event is a `HANDSHAKE_RESPONSE` carrying a non-null error
(the condition tested by `wait_for_workers`, workers.py lines 171-175). -/
def MEvent.isHandshakeFailure : MEvent → Bool
  | .handshake_response _ (some _) => true
  | _ => false

/-- The loop of `Manager.wait_for_workers` (workers.py lines 169-177):
while not every worker is `running`, poll (each iteration consumes the
next batch of incoming wire events; no new discovery files appear during
the wait) and return `false` on a yielded `HANDSHAKE_RESPONSE` with a
non-null error.  `none` means the supplied event batches ran out with the
loop still waiting. -/
def Manager.wait_loop : ManagerState → List (List (String × WireEvent)) →
    Except String (Option (Bool × ManagerState))
  | s, [] =>
    if s.workers.all fun w => w.status = .running then .ok (some (true, s))
    else .ok none
  | s, b :: rest =>
    if s.workers.all fun w => w.status = .running then .ok (some (true, s))
    else
      match Manager.poll s [] b with
      | .error e => .error e
      | .ok (s', evts) =>
        if evts.any MEvent.isHandshakeFailure then
          .ok (some (false, s'))
        else
          Manager.wait_loop s' rest

/-- `Manager.wait_for_workers` (workers.py lines 167-177): `_check_started`
first, then the wait loop. -/
def Manager.wait_for_workers (s : ManagerState)
    (batches : List (List (String × WireEvent))) :
    Except String (Option (Bool × ManagerState)) :=
  if ¬ s.started then .error "Manager not started"
  else Manager.wait_loop s batches

/-! ## LocalWorker child bookkeeping

Translated from `src/paleomix/core/workers.py`, class `LocalWorker`
(lines 397-497). -/

/-- An exception value carried by a completion-queue message or a
`TASK_DONE` event: either a `NodeError(message)` or some other
exception (kept as its repr). -/
inductive PyExc where
  | nodeError (message : String)
  | other (repr : String)
deriving Repr, DecidableEq

/-- One message on the local worker's completion queue, written by
`task_wrapper` (workers.py lines 649-678): the task id, the error (if
any), and the formatted backtrace (if any). -/
structure QueueMessage where
  task_id : Nat
  error : Option PyExc
  backtrace : Option (List String)
deriving Repr, DecidableEq

/-- The `TASK_DONE` event dict returned by `LocalWorker.get`
(workers.py lines 472-480). -/
structure TaskDoneEvent where
  task : Node
  error : Option PyExc
  backtrace : Option (List String)
deriving Repr, DecidableEq

/-- The state of a `LocalWorker`: `handles` maps each child's sentinel
handle to the joined child's exit code together with the task it was
started for (`self._handles`); `running` is the task-id-keyed
`self._running` dict; `queue` is the shared FIFO completion queue;
`threads` is the worker's announced capacity. -/
structure LocalWorker where
  status : Status
  threads : Nat
  handles : List (Nat × (Int × Node))
  running : List (Nat × Node)
  queue : List QueueMessage
deriving Repr, DecidableEq

/-- `LocalWorker.get` (workers.py lines 451-480): after `_check_running`
(status must be `running`, else `WorkerError("LocalWorker is not
running")`), the handle is popped (`KeyError` when unknown) and the child
joined.  When the child's exit code is non-zero, a synthetic
`NodeError(f"Process terminated with exit code {proc.exitcode}")` with a
null backtrace is reported for the task the handle was registered under,
and neither the running map nor the queue is touched.  When the exit code
is zero, the next message is read from the queue (which may belong to a
different completed child) and the task is the one popped from the
running map under the message's task id.  The result is the single
`TASK_DONE` event and the successor state. -/
def LocalWorker.get (s : LocalWorker) (handle : Nat) :
    Except String (TaskDoneEvent × LocalWorker) :=
  if s.status ≠ .running then .error "LocalWorker is not running"
  else
    match s.handles.find? fun p => p.1 = handle with
    | none => .error "KeyError"
    | some p =>
      let exitcode := p.2.1
      let task := p.2.2
      let handles' := s.handles.filter fun q => q.1 ≠ handle
      if exitcode ≠ 0 then
        .ok
          (⟨task,
            some (.nodeError
              ("Process terminated with exit code " ++ toString exitcode)),
            none⟩,
           { s with handles := handles' })
      else
        match s.queue with
        | [] => .error "queue.get would block"
        | msg :: restQueue =>
          match s.running.find? fun q => q.1 = msg.task_id with
          | none => .error "KeyError"
          | some r =>
            .ok
              (⟨r.2, msg.error, msg.backtrace⟩,
               { s with
                  handles := handles'
                  queue := restQueue
                  running := s.running.filter fun q => q.1 ≠ msg.task_id })

/-- The idle-thread count `Manager.poll` computes for a worker
(workers.py line 218), applied to a `LocalWorker` state:
`worker.threads - sum(task.threads for task in worker.tasks)`, where
`tasks` iterates the values of the running map. -/
def LocalWorker.idle_threads (s : LocalWorker) : Int :=
  (s.threads : Int) - ((s.running.map fun p => p.2.threads).foldr (· + ·) 0 : Nat)

/-! ## Theorems -/

/-- Closed form of set-level commit: the members strictly before the first
raising member are committed in declaration order, their outputs land at
their destinations, and the error (if any) is the first raising member. -/
theorem CmdSet.commit_eq (cmds : List AtomicCmd) (fs : List String) :
    CmdSet.commit fs cmds =
      (fs ++ ((cmds.takeWhile fun c => !c.commit_raises).map AtomicCmd.outputs).flatten,
       (cmds.takeWhile fun c => !c.commit_raises).map AtomicCmd.id,
       ((cmds.dropWhile fun c => !c.commit_raises).head?).map AtomicCmd.id) := by
  induction cmds generalizing fs with
  | nil => simp [CmdSet.commit]
  | cons c rest ih =>
    by_cases hc : c.commit_raises
    · simp [CmdSet.commit, hc, List.takeWhile_cons, List.dropWhile_cons]
    · simp [CmdSet.commit, hc, List.takeWhile_cons, List.dropWhile_cons, ih]

/-- C1: for a `CmdSet` (ParallelCmds or SequentialCmds share this logic)
whose members all exited 0, `commit()` commits the members in declaration
order; when some member's commit raises, the members after it are not
committed while the error propagates, and the outputs of the members
committed before it remain in place at their final destinations. -/
theorem c1_cmdset_commit_order (cmds : List AtomicCmd) (fs : List String)
    (_hexit : ∀ c ∈ cmds, c.returncode = 0) :
    CmdSet.commit fs cmds =
      (fs ++ ((cmds.takeWhile fun c => !c.commit_raises).map AtomicCmd.outputs).flatten,
       (cmds.takeWhile fun c => !c.commit_raises).map AtomicCmd.id,
       ((cmds.dropWhile fun c => !c.commit_raises).head?).map AtomicCmd.id) :=
  CmdSet.commit_eq cmds fs

/-- Witness for C1 at a concrete three-member set whose second member's
commit raises: only the first member is committed, its output is in
place, and the error names the second member. -/
theorem c1_cmdset_commit_order_witness :
    (∀ c ∈ [(⟨1, 0, ["/out/a"], false⟩ : AtomicCmd),
            ⟨2, 0, ["/out/b"], true⟩, ⟨3, 0, ["/out/c"], false⟩],
        c.returncode = 0)
    ∧ CmdSet.commit ["/pre"]
        [⟨1, 0, ["/out/a"], false⟩, ⟨2, 0, ["/out/b"], true⟩,
         ⟨3, 0, ["/out/c"], false⟩] =
      (["/pre", "/out/a"], [1], some 2) := by
  refine ⟨by decide, ?_⟩
  rw [c1_cmdset_commit_order _ _ (by decide)]
  rfl

/-- C5: for a ParallelCmds of one immediately failing member (exit code 1)
and two long-running members, `join()` reports the failure's exit code and
`"SIGTERM"` for the others, whichever position the failing member
occupies; in general, once any member has exited non-zero, every
still-running member is signalled TERM and reports `"SIGTERM"`. -/
theorem c5_parallel_join_failure :
    ParallelCmds.join [.exits 1, .sleeps, .sleeps] =
        [.code 1, .signal "SIGTERM", .signal "SIGTERM"]
    ∧ ParallelCmds.join [.sleeps, .exits 1, .sleeps] =
        [.signal "SIGTERM", .code 1, .signal "SIGTERM"]
    ∧ ParallelCmds.join [.sleeps, .sleeps, .exits 1] =
        [.signal "SIGTERM", .signal "SIGTERM", .code 1]
    ∧ ∀ (ms : List PMember), ms.any PMember.fails = true →
        ∀ i : Nat, ms[i]? = some .sleeps →
          (ParallelCmds.join ms)[i]? = some (.signal "SIGTERM") := by
  refine ⟨by decide, by decide, by decide, ?_⟩
  intro ms hms i hi
  unfold ParallelCmds.join
  simp [hms, List.getElem?_map, hi]

/-- Witness for C5's general conjunct at a concrete two-member set where
position 0 holds a still-running member and position 1 fails. -/
theorem c5_parallel_join_failure_witness :
    ([PMember.sleeps, PMember.exits 2].any PMember.fails = true)
    ∧ (ParallelCmds.join [PMember.sleeps, PMember.exits 2])[0]? =
        some (.signal "SIGTERM") :=
  ⟨by decide, c5_parallel_join_failure.2.2.2 _ (by decide) 0 (by decide)⟩

/-- C6: a SequentialCmds starts its members in order up to and including
the first member with a non-zero exit (`findIdx` below, equal to the list
length when none fails); members after that one are never started, and
`join()` returns the exit codes of the members that ran followed by `None`
for every member that never started. -/
theorem c6_sequential_stops_at_failure (codes : List Nat) :
    SequentialCmds.run codes =
      ((codes.take (codes.findIdx (fun c => c != 0) + 1)).map some
         ++ List.replicate (codes.length - (codes.findIdx (fun c => c != 0) + 1)) none,
       min (codes.findIdx (fun c => c != 0) + 1) codes.length) := by
  induction codes with
  | nil => simp [SequentialCmds.run]
  | cons c rest ih =>
    by_cases hc : c = 0
    · subst hc
      simp [SequentialCmds.run, List.findIdx_cons, ih, Nat.succ_sub_succ,
        Nat.succ_min_succ]
    · have hc' : (c != 0) = true := by simpa using hc
      simp [SequentialCmds.run, hc, List.findIdx_cons, hc', List.map_const',
        Nat.min_eq_left (Nat.succ_le_succ (Nat.zero_le _))]

/-- C7: a node with no output files or no input files is never classified
OUTDATED by the outdatedness predicate, whatever the file mtimes are. -/
theorem c7_empty_never_outdated (input_files output_files : List String)
    (cache : FileStatusCache) (h : input_files = [] ∨ output_files = []) :
    NodeGraph.is_outdated input_files output_files cache = false := by
  rcases h with h | h <;> subst h
  · unfold NodeGraph.is_outdated
    cases houts : output_files.mapM cache with
    | none => rfl
    | some l =>
      cases l with
      | nil => rfl
      | cons m ms => simp
  · rfl

/-- Witness for C7 at a node with one input, no outputs, and an existing
input file. -/
theorem c7_empty_never_outdated_witness :
    ((["in.txt"] : List String) = [] ∨ ([] : List String) = [])
    ∧ NodeGraph.is_outdated ["in.txt"] [] (fun _ => some 10) = false :=
  ⟨Or.inr rfl,
   c7_empty_never_outdated ["in.txt"] [] (fun _ => some 10) (Or.inr rfl)⟩

/-- `filterMap` respects functions that agree on the list's members. -/
theorem filterMap_congr_of_mem {α β : Type} {l : List α} {f g : α → Option β}
    (h : ∀ a ∈ l, f a = g a) : l.filterMap f = l.filterMap g := by
  induction l with
  | nil => rfl
  | cons a l ih =>
    rw [List.filterMap_cons, List.filterMap_cons,
      h a (List.mem_cons_self a l), ih fun x hx => h x (List.mem_cons_of_mem a hx)]

/-- Every worker's announced capacity is bounded by the maximum over the
worker map. -/
theorem Worker.threads_le_maxThreads {w : Worker} {ws : List Worker}
    (h : w ∈ ws) : w.threads ≤ maxThreads ws := by
  induction ws with
  | nil => cases h
  | cons v vs ih =>
    rcases List.mem_cons.mp h with rfl | h'
    · exact Nat.le_max_left _ _
    · exact Nat.le_trans (ih h') (Nat.le_max_right _ _)

/-- C4: after draining events, `Manager.poll` synthesizes a `CAPACITY`
event for exactly the workers whose idle-thread count (capacity minus the
threads of the running tasks) is positive, carrying that idle count; the
event is flagged `overcommit = true` exactly when the worker is a largest
worker (its capacity equals the maximum capacity over the worker map) and
its entire capacity is idle. -/
theorem c4_capacity_events (ws : List Worker) :
    Manager.capacityEvents ws = Manager.capacityEventsSpec ws := by
  unfold Manager.capacityEvents Manager.capacityEventsSpec
  apply filterMap_congr_of_mem
  intro w hw
  simp only
  by_cases hidle : (0 : Int) < (w.threads : Int) - (w.taskThreads : Int)
  · rw [if_pos hidle, if_pos hidle]
    have hle : w.threads ≤ maxThreads ws := Worker.threads_le_maxThreads hw
    have hd : (maxThreads ws ≠ 0 ∧
          (w.threads : Int) - (w.taskThreads : Int) = (maxThreads ws : Int)) ↔
        (w.threads = maxThreads ws ∧
          (w.threads : Int) - (w.taskThreads : Int) = (w.threads : Int)) := by
      omega
    rw [decide_eq_decide.mpr hd]
  · rw [if_neg hidle, if_neg hidle]

/-- C8: when `LocalWorker.get(handle)` joins a child that exited with a
non-zero code (and hence no completion message of its own is consulted),
it returns the single `TASK_DONE` event whose error is
`NodeError("Process terminated with exit code N")` with `N` the child's
exit code and whose backtrace is null, for the task the handle was
registered under; when the joined child exited with code 0, the event's
task is the one matched by the task id read from the completion queue,
which may differ from the child that was joined. -/
theorem c8_localworker_get_results (s : LocalWorker) (hs : s.status = .running) :
    (∀ (handle : Nat) (ec : Int) (task : Node),
        (s.handles.find? fun p => p.1 = handle) = some (handle, (ec, task)) →
        ec ≠ 0 →
        s.get handle = .ok
          (⟨task,
            some (.nodeError
              ("Process terminated with exit code " ++ toString ec)), none⟩,
           { s with handles := s.handles.filter fun q => q.1 ≠ handle }))
    ∧ (∀ (handle : Nat) (task : Node) (msg : QueueMessage)
          (restQueue : List QueueMessage) (matched : Node),
        (s.handles.find? fun p => p.1 = handle) = some (handle, (0, task)) →
        s.queue = msg :: restQueue →
        (s.running.find? fun q => q.1 = msg.task_id) =
          some (msg.task_id, matched) →
        s.get handle = .ok
          (⟨matched, msg.error, msg.backtrace⟩,
           { s with
              handles := s.handles.filter fun q => q.1 ≠ handle
              queue := restQueue
              running := s.running.filter fun q => q.1 ≠ msg.task_id })) := by
  constructor
  · intro handle ec task hfind hec
    simp only [LocalWorker.get, hs, hfind]
    simp [hec]
  · intro handle task msg restQueue matched hfind hqueue hmatched
    simp only [LocalWorker.get, hs, hfind, hqueue, hmatched]
    simp

/-- Witness for C8: a worker with two joined children.  Handle 1's child
was killed (exit code -15) and yields the synthetic NodeError for its own
task; handle 2's child exited 0 and its event carries the task named by
the queued message — task 7, not task 8 that handle 2 was registered
under. -/
theorem c8_localworker_get_results_witness :
    LocalWorker.get
        ⟨.running, 4, [(1, (-15, ⟨8, 2⟩)), (2, (0, ⟨8, 2⟩))],
         [(7, ⟨7, 3⟩), (8, ⟨8, 2⟩)], [⟨7, none, none⟩]⟩ 1 =
      .ok
        (⟨⟨8, 2⟩,
          some (.nodeError "Process terminated with exit code -15"), none⟩,
         ⟨.running, 4, [(2, (0, ⟨8, 2⟩))], [(7, ⟨7, 3⟩), (8, ⟨8, 2⟩)],
          [⟨7, none, none⟩]⟩)
    ∧ LocalWorker.get
        ⟨.running, 4, [(1, (-15, ⟨8, 2⟩)), (2, (0, ⟨8, 2⟩))],
         [(7, ⟨7, 3⟩), (8, ⟨8, 2⟩)], [⟨7, none, none⟩]⟩ 2 =
      .ok
        (⟨⟨7, 3⟩, none, none⟩,
         ⟨.running, 4, [(1, (-15, ⟨8, 2⟩))], [(8, ⟨8, 2⟩)], []⟩) := by
  constructor
  · have h := (c8_localworker_get_results
      ⟨.running, 4, [(1, (-15, ⟨8, 2⟩)), (2, (0, ⟨8, 2⟩))],
       [(7, ⟨7, 3⟩), (8, ⟨8, 2⟩)], [⟨7, none, none⟩]⟩ rfl).1
      1 (-15) ⟨8, 2⟩ (by decide) (by decide)
    exact h
  · have h := (c8_localworker_get_results
      ⟨.running, 4, [(1, (-15, ⟨8, 2⟩)), (2, (0, ⟨8, 2⟩))],
       [(7, ⟨7, 3⟩), (8, ⟨8, 2⟩)], [⟨7, none, none⟩]⟩ rfl).2
      2 ⟨8, 2⟩ ⟨7, none, none⟩ [] ⟨7, 3⟩ (by decide) rfl (by decide)
    exact h

/-- C9: when `LocalWorker.get(handle)` joins a child with a non-zero exit
code, only the handle entry is removed: the running-task map, the
completion queue, and the capacity are left unchanged, so the failed
task's threads still count against the idle-thread computation
(`threads - sum of running-task threads`) used by `Manager.poll`. -/
theorem c9_localworker_get_frame (s : LocalWorker) (handle : Nat) (ec : Int)
    (task : Node) (hs : s.status = .running)
    (hfind : (s.handles.find? fun p => p.1 = handle) = some (handle, (ec, task)))
    (hec : ec ≠ 0) :
    ∃ ev s', s.get handle = .ok (ev, s')
      ∧ s'.handles = (s.handles.filter fun q => q.1 ≠ handle)
      ∧ s'.running = s.running
      ∧ s'.queue = s.queue
      ∧ s'.threads = s.threads
      ∧ s'.idle_threads = s.idle_threads := by
  refine ⟨_, _, (c8_localworker_get_results s hs).1 handle ec task hfind hec,
    rfl, rfl, rfl, rfl, rfl⟩

/-- Witness for C9 at the crashed-child state of the C8 witness. -/
theorem c9_localworker_get_frame_witness :
    ∃ ev s',
      LocalWorker.get
          ⟨.running, 4, [(1, (-15, ⟨8, 2⟩)), (2, (0, ⟨8, 2⟩))],
           [(7, ⟨7, 3⟩), (8, ⟨8, 2⟩)], [⟨7, none, none⟩]⟩ 1 = .ok (ev, s')
      ∧ s'.handles = [(2, (0, ⟨8, 2⟩))]
      ∧ s'.running = [(7, ⟨7, 3⟩), (8, ⟨8, 2⟩)]
      ∧ s'.queue = [⟨7, none, none⟩]
      ∧ s'.threads = 4
      ∧ s'.idle_threads = -1 := by
  obtain ⟨ev, s', h1, h2, h3, h4, h5, h6⟩ := c9_localworker_get_frame
    ⟨.running, 4, [(1, (-15, ⟨8, 2⟩)), (2, (0, ⟨8, 2⟩))],
     [(7, ⟨7, 3⟩), (8, ⟨8, 2⟩)], [⟨7, none, none⟩]⟩ 1 (-15) ⟨8, 2⟩ rfl
    (by decide) (by decide)
  exact ⟨ev, s', h1, by rw [h2]; rfl, by rw [h3], by rw [h4], by rw [h5],
    by rw [h6]; rfl⟩

/-- C10: calling `Manager.poll`, `Manager.start_task`, or
`Manager.wait_for_workers` before `Manager.start` has succeeded (i.e.
while `self._local is None`) raises `WorkerError("Manager not started")`
before any state is touched (in this embedding an `Except.error` result
carries no successor state, reflecting that the exception is raised
before any mutation); calling `Manager.start` a second time after it
succeeded raises `WorkerError("Manager already started")`. -/
theorem c10_manager_started_checks :
    (∀ (s : ManagerState) (dir : List DiscoveryFile)
        (incoming : List (String × WireEvent)), s.started = false →
        Manager.poll s dir incoming = .error "Manager not started")
    ∧ (∀ (s : ManagerState) (worker_id : String) (task : Node),
        s.started = false →
        Manager.start_task s worker_id task = .error "Manager not started")
    ∧ (∀ (s : ManagerState) (batches : List (List (String × WireEvent))),
        s.started = false →
        Manager.wait_for_workers s batches = .error "Manager not started")
    ∧ (∀ (s : ManagerState) (versionOk : Bool) (dir : List DiscoveryFile),
        s.started = true →
        Manager.start s versionOk dir = .error "Manager already started") := by
  refine ⟨?_, ?_, ?_, ?_⟩
  · intro s dir incoming h
    simp [Manager.poll, h]
  · intro s worker_id task h
    simp [Manager.start_task, h]
  · intro s batches h
    simp [Manager.wait_for_workers, h]
  · intro s versionOk dir h
    simp [Manager.start, h]

/-- Witness for C10 on concrete manager states: a freshly constructed
(unstarted) manager and a started one. -/
theorem c10_manager_started_checks_witness :
    Manager.poll ⟨false, "local", 4, [], [], [], []⟩ [] [] =
        .error "Manager not started"
    ∧ Manager.start_task ⟨false, "local", 4, [], [], [], []⟩ "w-1" ⟨1, 1⟩ =
        .error "Manager not started"
    ∧ Manager.wait_for_workers ⟨false, "local", 4, [], [], [], []⟩ [] =
        .error "Manager not started"
    ∧ Manager.start
        ⟨true, "local", 4, [],
         [⟨"local", true, .running, 4, [], ""⟩], [], []⟩ true [] =
        .error "Manager already started" :=
  ⟨c10_manager_started_checks.1 _ [] [] rfl,
   c10_manager_started_checks.2.1 _ "w-1" ⟨1, 1⟩ rfl,
   c10_manager_started_checks.2.2.1 _ [] rfl,
   c10_manager_started_checks.2.2.2 _ true [] rfl⟩

/-- The manager-level processing of an event never yields a
`HANDSHAKE_RESPONSE`: handshake responses are consumed (workers.py line
207's `continue` covers both the error and the success case). -/
theorem process_event_no_handshake (s : ManagerState) (e : MEvent) :
    ∀ e' ∈ (s.process_event e).2, e'.isHandshakeFailure = false := by
  cases e with
  | handshake_response wid err =>
    cases err <;> simp [ManagerState.process_event]
  | capacity wid t o =>
    simp [ManagerState.process_event, MEvent.isHandshakeFailure]
  | task_done wid task err bt =>
    simp [ManagerState.process_event, MEvent.isHandshakeFailure]
  | shutdown wid =>
    simp [ManagerState.process_event, MEvent.isHandshakeFailure]

/-- Synthesized capacity events are never handshake responses. -/
theorem capacityEvents_no_handshake (ws : List Worker) :
    ∀ e ∈ Manager.capacityEvents ws, e.isHandshakeFailure = false := by
  intro e he
  unfold Manager.capacityEvents at he
  rw [List.mem_filterMap] at he
  obtain ⟨w, _, hw⟩ := he
  dsimp only at hw
  split at hw
  · cases hw
    rfl
  · cases hw

/-- The manager-level event-processing fold preserves the absence of
handshake responses in the accumulated yielded events. -/
theorem foldl_process_no_handshake (events : List MEvent)
    (init : ManagerState × List MEvent)
    (hinit : ∀ e ∈ init.2, e.isHandshakeFailure = false) :
    ∀ e ∈ (events.foldl
      (fun (acc : ManagerState × List MEvent) e =>
        let (st, out) := acc
        let p := st.process_event e
        (p.1, out ++ p.2)) init).2,
      e.isHandshakeFailure = false := by
  induction events generalizing init with
  | nil => simpa using hinit
  | cons ev rest ih =>
    obtain ⟨st, out⟩ := init
    rw [List.foldl_cons]
    apply ih
    intro e he
    simp only at he
    rcases List.mem_append.mp he with h | h
    · exact hinit e h
    · exact process_event_no_handshake st ev e h

/-- `Manager.poll` never yields a `HANDSHAKE_RESPONSE` event: every
handshake response is consumed inside the poll loop, so a consumer of
`poll` — in particular `wait_for_workers` — can never observe one. -/
theorem poll_never_yields_handshake :
    ∀ (s : ManagerState) (dir : List DiscoveryFile)
      (incoming : List (String × WireEvent)) (s' : ManagerState)
      (evts : List MEvent),
      Manager.poll s dir incoming = .ok (s', evts) →
      ∀ e ∈ evts, e.isHandshakeFailure = false := by
  intro s dir incoming s' evts h e he
  unfold Manager.poll at h
  split at h
  · unfold Manager.poll_body at h
    dsimp only at h
    split at h
    · cases h
    · rename_i s1collected heq
      cases h
      rcases List.mem_append.mp he with hmem | hmem
      · exact foldl_process_no_handshake _ _ (by simp) e hmem
      · exact capacityEvents_no_handshake _ e hmem
  · cases h

/-- The local worker of the C2 scenario: running, capacity 4, idle. -/
def c2Local : Worker := ⟨"local", true, .running, 4, [], ""⟩

/-- The remote worker of the C2 scenario: it has been connected
(`HANDSHAKE` sent) and awaits its handshake response. -/
def c2Remote : Worker := ⟨"w-1", false, .connecting, 0, [], "s3cret"⟩

/-- The C2 scenario: a started manager owning the running local worker
and the connecting remote worker. -/
def c2State : ManagerState :=
  ⟨true, "local", 4, [], [c2Local, c2Remote], [], []⟩

/-- The incoming events of the C2 scenario: the remote worker's
`HANDSHAKE_RESPONSE` carries a non-null error. -/
def c2Batch : List (String × WireEvent) :=
  [("w-1", .handshake_response (some "worker version mismatch"))]

/-- The manager state after the C2 poll: the failed worker is gone from
the worker map and its id is blacklisted. -/
def c2After : ManagerState :=
  ⟨true, "local", 4, [], [c2Local], [], ["w-1"]⟩

/-- A discovery file re-announcing the C2 worker's id. -/
def c2File : DiscoveryFile :=
  ⟨"w1.json", true, some ⟨"w-1", "node01", 14, "s3cret"⟩, true⟩

/-- C2, evaluated at the failing input: when the remote worker's
`HANDSHAKE_RESPONSE` carries a non-null error, `Manager.poll` blacklists
the worker's id for the session, removes the worker from the worker map,
and consumes the handshake event (yielding only the synthesized local
`CAPACITY` event); afterwards no task can be dispatched to the worker
(`start_task` refuses with `False`) and auto-discovery never reconnects
the blacklisted id (no connection attempt, no unlink).  However —
diverging from the claim — `wait_for_workers` returns `True`: because
`poll` never yields `HANDSHAKE_RESPONSE` events, the branch of
`wait_for_workers` that would return `False` on a failed handshake is
unreachable, and once the failed worker has been removed the remaining
workers are all running. -/
theorem c2_handshake_failure_trace :
    Manager.poll c2State [] c2Batch =
        .ok (c2After, [.capacity "local" 4 true])
    ∧ c2After.workerBlacklist = ["w-1"]
    ∧ c2After.workers.map Worker.id = ["local"]
    ∧ Manager.start_task c2After "w-1" ⟨9, 2⟩ = .ok (false, c2After)
    ∧ (Manager.auto_connect_to_workers c2After [c2File]).attempts = []
    ∧ (Manager.auto_connect_to_workers c2After [c2File]).unlinked = []
    ∧ ([MEvent.capacity "local" 4 true].any MEvent.isHandshakeFailure) = false
    ∧ Manager.wait_for_workers c2State [c2Batch] = .ok (some (true, c2After)) := by
  refine ⟨rfl, rfl, rfl, rfl, by decide, by decide, rfl, rfl⟩

/-- A discovery-directory entry that `_collect_workers` considers: a
regular file named `*.json`. -/
def DiscoveryFile.eligible (f : DiscoveryFile) : Bool :=
  ".json".data.isSuffixOf f.filename.data && f.isFile

/-- The eligible, parsable discovery files of a directory listing, each
paired with its decoded worker info, in listing order. -/
def parsableInfos (dir : List DiscoveryFile) :
    List (DiscoveryFile × WorkerInfo) :=
  dir.filterMap fun f =>
    if f.eligible then f.parsed.map fun i => (f, i) else none

/-- The `RemoteWorker(**info)` constructed during auto-discovery, as it
stands right after a successful `connect`: status `connecting`, no
capacity announced yet, no tasks, carrying the decoded secret. -/
def WorkerInfo.toWorker (i : WorkerInfo) : Worker :=
  ⟨i.id, false, .connecting, 0, [], i.secret⟩

/-- Closed form of the `_collect_workers` fold from an arbitrary starting
accumulator, provided no listed file is already blacklisted and the
listed filenames are distinct: the eligible unparsable files are appended
to the json blacklist and the eligible parsable files are appended to the
output. -/
theorem collect_workers_go (dir : List DiscoveryFile) :
    ∀ (st : ManagerState) (out : List (DiscoveryFile × WorkerInfo)),
    (∀ f ∈ dir, f.filename ∉ st.jsonBlacklist) →
    List.Pairwise (fun a b => a.filename ≠ b.filename) dir →
    dir.foldl Manager.collect_workers_step (st, out) =
    ({ st with jsonBlacklist := st.jsonBlacklist ++
        ((dir.filter fun f => f.eligible && f.parsed.isNone).map
          DiscoveryFile.filename) },
     out ++ parsableInfos dir) := by
  induction dir with
  | nil => intro st out _ _; simp [parsableInfos]
  | cons f rest ih =>
    intro st out hbl hfn
    rw [List.foldl_cons]
    have hblf : f.filename ∉ st.jsonBlacklist := hbl f (List.mem_cons_self f rest)
    by_cases helig : (".json".data.isSuffixOf f.filename.data ∧ f.isFile)
    · have heligb : f.eligible = true := by
        simp [DiscoveryFile.eligible, helig.1, helig.2]
      cases hp : f.parsed with
      | none =>
        have hstep : Manager.collect_workers_step (st, out) f =
            ({ st with jsonBlacklist := st.jsonBlacklist ++ [f.filename] },
             out) := by
          unfold Manager.collect_workers_step
          rw [if_neg (by simp [hblf, helig.1, helig.2]), hp]
        rw [hstep, ih _ _ ?hbl ?hfn]
        case hbl =>
          intro g hg
          have hgf : g.filename ≠ f.filename :=
            fun hEq => (List.pairwise_cons.mp hfn).1 g hg hEq.symm
          simp [List.mem_append, hbl g (List.mem_cons_of_mem f hg), hgf]
        case hfn => exact (List.pairwise_cons.mp hfn).2
        simp [parsableInfos, List.filter_cons, heligb, hp,
          List.filterMap_cons]
      | some info =>
        have hstep : Manager.collect_workers_step (st, out) f =
            (st, out ++ [(f, info)]) := by
          unfold Manager.collect_workers_step
          rw [if_neg (by simp [hblf, helig.1, helig.2]), hp]
        rw [hstep, ih _ _
          (fun g hg => hbl g (List.mem_cons_of_mem f hg))
          (List.pairwise_cons.mp hfn).2]
        simp [parsableInfos, List.filter_cons, heligb, hp,
          List.filterMap_cons]
    · have heligb : f.eligible = false := by
        unfold DiscoveryFile.eligible
        cases h1 : ".json".data.isSuffixOf f.filename.data <;>
          cases h2 : f.isFile <;> simp_all
      have hstep : Manager.collect_workers_step (st, out) f = (st, out) := by
        unfold Manager.collect_workers_step
        rw [if_pos (Or.inr helig)]
      rw [hstep, ih _ _
        (fun g hg => hbl g (List.mem_cons_of_mem f hg))
        (List.pairwise_cons.mp hfn).2]
      simp [parsableInfos, List.filter_cons, heligb, List.filterMap_cons]

/-- Closed form of the connection loop of `_auto_connect_to_workers` from
an arbitrary accumulator, provided the collected worker ids are distinct,
none is blacklisted, and none is already connected: every collected info
is attempted; the workers whose connect succeeds are appended to the
worker map (status `connecting`) and their files unlinked; the ids whose
connect fails are appended to the worker blacklist. -/
theorem auto_connect_go (infos : List (DiscoveryFile × WorkerInfo)) :
    ∀ (r : AutoConnectResult),
    (∀ p ∈ infos, p.2.id ∉ r.state.workerBlacklist) →
    (∀ p ∈ infos, ∀ w ∈ r.state.workers, w.id ≠ p.2.id) →
    List.Pairwise (fun a b => a.2.id ≠ b.2.id) infos →
    infos.foldl Manager.auto_connect_step r =
      { state := { r.state with
          workers := r.state.workers ++
            ((infos.filter fun p => p.1.connectOk).map fun p => p.2.toWorker)
          workerBlacklist := r.state.workerBlacklist ++
            ((infos.filter fun p => !p.1.connectOk).map fun p => p.2.id) }
        unlinked := r.unlinked ++
          ((infos.filter fun p => p.1.connectOk).map fun p => p.1.filename)
        attempts := r.attempts ++ (infos.map fun p => p.2)
        anyErrors := r.anyErrors || (infos.any fun p => !p.1.connectOk) } := by
  induction infos with
  | nil =>
    intro r _ _ _
    simp
  | cons p rest ih =>
    intro r hbl hws hid
    rw [List.foldl_cons]
    have hblp : p.2.id ∉ r.state.workerBlacklist :=
      hbl p (List.mem_cons_self p rest)
    have hwsp : ∀ w ∈ r.state.workers, w.id ≠ p.2.id :=
      hws p (List.mem_cons_self p rest)
    have hany : (r.state.workers.any fun w => w.id = p.2.id) = false := by
      rw [List.any_eq_false]
      intro w hw
      simp [hwsp w hw]
    cases hok : p.1.connectOk with
    | true =>
      have hstep : Manager.auto_connect_step r p =
          { r with
            state := { r.state with
              workers := r.state.workers ++
                [⟨p.2.id, false, .connecting, 0, [], p.2.secret⟩] }
            unlinked := r.unlinked ++ [p.1.filename]
            attempts := r.attempts ++ [p.2] } := by
        unfold Manager.auto_connect_step
        rw [if_neg (by simp [hblp]), if_neg (by simp [hany]), if_pos hok]
      rw [hstep, ih _ ?hbl ?hws (List.pairwise_cons.mp hid).2]
      case hbl =>
        intro q hq
        exact hbl q (List.mem_cons_of_mem p hq)
      case hws =>
        intro q hq w hw
        rcases List.mem_append.mp hw with h | h
        · exact hws q (List.mem_cons_of_mem p hq) w h
        · rcases List.mem_singleton.mp h with rfl
          exact fun hEq => (List.pairwise_cons.mp hid).1 q hq hEq
      simp [WorkerInfo.toWorker, List.filter_cons, hok]
    | false =>
      have hstep : Manager.auto_connect_step r p =
          { r with
            state := { r.state with
              workerBlacklist := r.state.workerBlacklist ++ [p.2.id] }
            attempts := r.attempts ++ [p.2]
            anyErrors := true } := by
        unfold Manager.auto_connect_step
        rw [if_neg (by simp [hblp]), if_neg (by simp [hany]), if_neg (by simp [hok])]
      rw [hstep, ih _ ?hbl ?hws (List.pairwise_cons.mp hid).2]
      case hbl =>
        intro q hq
        have hqbl : q.2.id ∉ r.state.workerBlacklist :=
          hbl q (List.mem_cons_of_mem p hq)
        intro hmem
        rcases List.mem_append.mp hmem with h | h
        · exact hqbl h
        · exact absurd (List.mem_singleton.mp h)
            fun hEq => (List.pairwise_cons.mp hid).1 q hq hEq.symm
      case hws =>
        intro q hq w hw
        exact hws q (List.mem_cons_of_mem p hq) w hw
      simp [List.filter_cons, hok, Bool.or_assoc]

/-- Each directory-scan step either skips the file, blacklists an
unparsable file, or — only when the file is not blacklisted — collects
it. -/
theorem collect_workers_step_cases
    (acc : ManagerState × List (DiscoveryFile × WorkerInfo))
    (f : DiscoveryFile) :
    Manager.collect_workers_step acc f = acc
    ∨ Manager.collect_workers_step acc f =
        ({ acc.1 with jsonBlacklist := acc.1.jsonBlacklist ++ [f.filename] },
         acc.2)
    ∨ (f.filename ∉ acc.1.jsonBlacklist ∧ ∃ info,
        Manager.collect_workers_step acc f = (acc.1, acc.2 ++ [(f, info)])) := by
  unfold Manager.collect_workers_step
  by_cases hcond : (acc.1.jsonBlacklist.contains f.filename
      ∨ ¬ (".json".data.isSuffixOf f.filename.data ∧ f.isFile))
  · left
    rw [if_pos hcond]
  · rw [if_neg hcond]
    cases hp : f.parsed with
    | none =>
      right; left; rfl
    | some info =>
      right; right
      refine ⟨fun hmem => hcond (Or.inl (by simpa using hmem)), info, rfl⟩

/-- A filename in the json blacklist at the start of a directory scan is
never among the collected files: blacklisted files are never re-read. -/
theorem collect_workers_blacklisted_never_read (dir : List DiscoveryFile) :
    ∀ (acc : ManagerState × List (DiscoveryFile × WorkerInfo)) (fn : String),
    fn ∈ acc.1.jsonBlacklist →
    (∀ p ∈ acc.2, p.1.filename ≠ fn) →
    ∀ p ∈ (dir.foldl Manager.collect_workers_step acc).2,
      p.1.filename ≠ fn := by
  induction dir with
  | nil =>
    intro acc fn _ h2
    simpa using h2
  | cons f rest ih =>
    intro acc fn h1 h2
    rw [List.foldl_cons]
    rcases collect_workers_step_cases acc f with hc | hc | ⟨hnotbl, info, hc⟩
    · exact ih _ fn (by rw [hc]; exact h1) (by rw [hc]; exact h2)
    · refine ih _ fn ?_ ?_
      · rw [hc]
        exact List.mem_append.mpr (Or.inl h1)
      · rw [hc]
        exact h2
    · refine ih _ fn ?_ ?_
      · rw [hc]
        exact h1
      · rw [hc]
        intro p hp
        rcases List.mem_append.mp hp with h | h
        · exact h2 p h
        · rcases List.mem_singleton.mp h with rfl
          exact fun hEq => hnotbl (hEq ▸ h1)

/-- C3 (amended): during an auto-discovery pass over a directory whose
filenames are distinct and not yet blacklisted, and whose parsable
eligible files carry distinct worker ids that are neither blacklisted nor
already connected: the manager attempts to connect for every parsable
discovery file, constructing the worker from the decoded info (including
the base64-decoded secret); it unlinks a discovery file exactly when the
connection attempt — `Client(..., authkey=secret)` plus sending the
`HANDSHAKE` — succeeds, which happens while the worker is still
`connecting`, before any handshake response is received; a file whose
parse fails is blacklisted for the session and (second conjunct) a
blacklisted file is never re-read by any later directory scan. -/
theorem c3_amended_auto_discovery (s : ManagerState) (dir : List DiscoveryFile)
    (hjson : ∀ f ∈ dir, f.filename ∉ s.jsonBlacklist)
    (hfn : List.Pairwise (fun a b => a.filename ≠ b.filename) dir)
    (hwbl : ∀ p ∈ parsableInfos dir, p.2.id ∉ s.workerBlacklist)
    (hws : ∀ p ∈ parsableInfos dir, ∀ w ∈ s.workers, w.id ≠ p.2.id)
    (hid : List.Pairwise (fun a b => a.2.id ≠ b.2.id) (parsableInfos dir)) :
    Manager.auto_connect_to_workers s dir =
      { state := { s with
          jsonBlacklist := s.jsonBlacklist ++
            ((dir.filter fun f => f.eligible && f.parsed.isNone).map
              DiscoveryFile.filename)
          workers := s.workers ++
            (((parsableInfos dir).filter fun p => p.1.connectOk).map
              fun p => p.2.toWorker)
          workerBlacklist := s.workerBlacklist ++
            (((parsableInfos dir).filter fun p => !p.1.connectOk).map
              fun p => p.2.id) }
        unlinked := ((parsableInfos dir).filter fun p => p.1.connectOk).map
          fun p => p.1.filename
        attempts := (parsableInfos dir).map fun p => p.2
        anyErrors := (parsableInfos dir).any fun p => !p.1.connectOk }
    ∧ ∀ (s₂ : ManagerState) (dir₂ : List DiscoveryFile) (fn : String),
        fn ∈ s₂.jsonBlacklist →
        ∀ p ∈ (Manager.collect_workers s₂ dir₂).2, p.1.filename ≠ fn := by
  constructor
  · unfold Manager.auto_connect_to_workers Manager.collect_workers
    dsimp only
    rw [collect_workers_go dir s [] hjson hfn]
    dsimp only [List.nil_append]
    rw [auto_connect_go (parsableInfos dir) _
      (fun p hp => hwbl p hp) (fun p hp w hw => hws p hp w hw) hid]
    simp
  · intro s₂ dir₂ fn h1
    exact collect_workers_blacklisted_never_read dir₂ (s₂, []) fn h1 (by simp)

/-- The discovery file of the C3 counterexample: parsable, and the
connection attempt to its worker succeeds. -/
def c3File : DiscoveryFile :=
  ⟨"worker.json", true, some ⟨"w-9", "node01", 14, "s3cret"⟩, true⟩

/-- The C3 counterexample's starting state: a started manager with only
the running local worker. -/
def c3State : ManagerState :=
  ⟨true, "local", 4, [], [⟨"local", true, .running, 4, [], ""⟩], [], []⟩

/-- The state right after the C3 auto-discovery pass: the discovered
worker is connected but still `connecting` — no handshake response has
been received yet. -/
def c3Connected : ManagerState :=
  ⟨true, "local", 4, [],
   [⟨"local", true, .running, 4, [], ""⟩,
    ⟨"w-9", false, .connecting, 0, [], "s3cret"⟩], [], []⟩

/-- The state after the discovered worker's handshake fails: the worker
is gone and its id blacklisted — its handshake never succeeded, yet its
discovery file was already unlinked. -/
def c3After : ManagerState :=
  ⟨true, "local", 4, [], [⟨"local", true, .running, 4, [], ""⟩], [],
   ["w-9"]⟩

/-- Counterexample to C3 as stated: the auto-discovery pass unlinks
`worker.json` at the moment `connect` succeeds, while the worker's status
is still `connecting` — the handshake has not succeeded (and in this
trace never does: the subsequent `HANDSHAKE_RESPONSE` carries an error,
upon which the worker is removed and blacklisted).  So the file is
unlinked without the handshake with that worker ever having succeeded. -/
theorem c3_unlink_before_handshake :
    (Manager.auto_connect_to_workers c3State [c3File]).unlinked =
        ["worker.json"]
    ∧ (Manager.auto_connect_to_workers c3State [c3File]).state = c3Connected
    ∧ (c3Connected.workers.map fun w => (w.id, w.status)) =
        [("local", .running), ("w-9", .connecting)]
    ∧ Manager.poll c3Connected []
        [("w-9", .handshake_response (some "handshake failed"))] =
        .ok (c3After, [.capacity "local" 4 true])
    ∧ c3After.workerBlacklist = ["w-9"]
    ∧ c3After.workers.map Worker.id = ["local"] := by
  refine ⟨by decide, by decide, by decide, rfl, rfl, rfl⟩

/-- The discovery directory of the C3 witness: an unparsable file, a
parsable file whose connect succeeds, a parsable file whose connect
fails, and a non-json file that is ignored. -/
def c3wDirectory : List DiscoveryFile :=
  [⟨"bad.json", true, none, true⟩,
   ⟨"ok.json", true, some ⟨"w-a", "hostA", 5000, "sA"⟩, true⟩,
   ⟨"down.json", true, some ⟨"w-b", "hostB", 5001, "sB"⟩, false⟩,
   ⟨"notes.txt", true, some ⟨"w-c", "hostC", 5002, "sC"⟩, true⟩]

/-- The C3 witness's starting state. -/
def c3wState : ManagerState :=
  ⟨true, "local", 4, [], [⟨"local", true, .running, 4, [], ""⟩], [], []⟩

/-- Witness for the amended C3 at a concrete directory: both parsable
json files are attempted with their decoded secrets; only the one whose
connect succeeded is unlinked and its worker added as `connecting`; the
unparsable file is json-blacklisted; the failed connect blacklists the
worker id; the non-json file is ignored. -/
theorem c3_amended_auto_discovery_witness :
    Manager.auto_connect_to_workers c3wState c3wDirectory =
      { state := ⟨true, "local", 4, [],
          [⟨"local", true, .running, 4, [], ""⟩,
           ⟨"w-a", false, .connecting, 0, [], "sA"⟩],
          ["bad.json"], ["w-b"]⟩
        unlinked := ["ok.json"]
        attempts := [⟨"w-a", "hostA", 5000, "sA"⟩,
                     ⟨"w-b", "hostB", 5001, "sB"⟩]
        anyErrors := true } := by
  have h := (c3_amended_auto_discovery c3wState c3wDirectory
    (by decide) (by decide) (by decide) (by decide) (by decide)).1
  exact h.trans (by decide)

end Paleomix
